import Mathlib

/-!
Shallow embedding of `src/cuda_control.c` (PG-Strom CUDA context / device
control module) together with proofs about its behaviour.

Machine integers are modelled as `Nat`/`Int`; C `size_t` arithmetic that can
wrap is made explicit with `% 2^64` where it matters.  Driver (CUDA) calls
are modelled by oracles: a driver call either succeeds or fails, and the
oracle decides which; the code's reaction to each outcome is translated
directly from the source.
-/

namespace CudaControl

/-! ## Device catalog (`pgstrom_check_device_capability`, `pgstrom_init_cuda_control`) -/

/-- The device properties read by `pgstrom_check_device_capability` that feed
into the process-wide aggregates and the capability predicate.  Properties
that are only written to the log (clock rates, bus width, L2 size, name,
number of SMs) are omitted. -/
structure DeviceProps where
  memSz : Nat                -- cuDeviceTotalMem (size_t dev_mem_sz)
  maxThreadsPerBlock : Nat   -- CU_DEVICE_ATTRIBUTE_MAX_THREADS_PER_BLOCK
  capMajor : Nat             -- CU_DEVICE_ATTRIBUTE_COMPUTE_CAPABILITY_MAJOR
  capMinor : Nat             -- CU_DEVICE_ATTRIBUTE_COMPUTE_CAPABILITY_MINOR
deriving DecidableEq, Repr

/-- The three process-wide aggregate limits maintained by the module
(`cuda_max_malloc_size`, `cuda_max_threads_per_block`,
`cuda_compute_capability`). -/
structure DeviceAggregates where
  maxMallocSize : Nat
  maxThreadsPerBlock : Nat
  computeCapability : Nat
deriving DecidableEq, Repr

/-- `INT_MAX`, the initial value of all three aggregate variables. -/
def INT_MAX : Nat := 2 ^ 31 - 1

/-- Initial values of the static aggregate variables. -/
def initAggregates : DeviceAggregates := ⟨INT_MAX, INT_MAX, INT_MAX⟩

/-- `(dev_mem_sz / 3) & ~((1UL << 20) - 1)`: one third of the device memory,
rounded down to a megabyte boundary. -/
def mallocClamp (memSz : Nat) : Nat := (memSz / 3) / 2 ^ 20 * 2 ^ 20

/-- `pgstrom_check_device_capability`: returns whether the device is
supported (compute capability major version at least 3) and updates the
three aggregates.  In the source the aggregate updates happen
unconditionally, after `result` has been computed but regardless of its
value. -/
def pgstrom_check_device_capability (d : DeviceProps) (agg : DeviceAggregates) :
    Bool × DeviceAggregates :=
  let result := decide (3 ≤ d.capMajor)
  let agg' : DeviceAggregates :=
    { maxMallocSize := min agg.maxMallocSize (mallocClamp d.memSz)
      maxThreadsPerBlock := min agg.maxThreadsPerBlock d.maxThreadsPerBlock
      computeCapability := min agg.computeCapability
                               (100 * d.capMajor + d.capMinor) }
  (result, agg')

/-- The device-enumeration loop of `pgstrom_init_cuda_control`: walks the
ordinals in order, calls `pgstrom_check_device_capability` on each device and
appends the ordinal to `cuda_device_ordinals` when the device is accepted. -/
def enumerateDevices : List (Nat × DeviceProps) → DeviceAggregates →
    List Nat × DeviceAggregates
  | [], agg => ([], agg)
  | (ord, d) :: rest, agg =>
    let (ok, agg') := pgstrom_check_device_capability d agg
    let (ords, agg'') := enumerateDevices rest agg'
    ((if ok then [ord] else []) ++ ords, agg'')

/-- `pgstrom_init_cuda_control`: enumerates all devices (ordinal `i` paired
with its properties), builds `cuda_device_ordinals` and the aggregates, and
fails fatally when no device was accepted. -/
def pgstrom_init_cuda_control (devs : List DeviceProps) :
    Except Unit (List Nat × DeviceAggregates) :=
  let r := enumerateDevices devs.enum initAggregates
  if r.1 = [] then .error () else .ok r

/-- Aggregates as the specification describes them: folded only over the
devices that passed the capability predicate. -/
def aggregatesOfIncluded (devs : List DeviceProps) : DeviceAggregates :=
  (devs.filter (fun d => 3 ≤ d.capMajor)).foldl
    (fun agg d => (pgstrom_check_device_capability d agg).2) initAggregates

/-- Aggregates folded over every enumerated device, accepted or not. -/
def aggregatesOfAll (devs : List DeviceProps) : DeviceAggregates :=
  devs.foldl (fun agg d => (pgstrom_check_device_capability d agg).2)
    initAggregates

/-- Ordinals of the devices that pass the capability predicate. -/
def includedOrdinals (devs : List DeviceProps) : List Nat :=
  (devs.enum.filter (fun p => 3 ≤ p.2.capMajor)).map (·.1)

end CudaControl

namespace CudaControl

/-! Helper lemmas about the enumeration fold. -/

theorem enumerateDevices_ordinals (l : List (Nat × DeviceProps)) :
    ∀ agg : DeviceAggregates,
      (enumerateDevices l agg).1 =
        (l.filter (fun p => 3 ≤ p.2.capMajor)).map (·.1) := by
  induction l with
  | nil => intro agg; rfl
  | cons p rest ih =>
    intro agg
    obtain ⟨ord, d⟩ := p
    by_cases h : 3 ≤ d.capMajor
    · simp [enumerateDevices, pgstrom_check_device_capability, h,
            List.filter_cons, ih]
    · simp [enumerateDevices, pgstrom_check_device_capability, h,
            List.filter_cons, ih]

theorem enumerateDevices_aggregates (l : List (Nat × DeviceProps)) :
    ∀ agg : DeviceAggregates,
      (enumerateDevices l agg).2 =
        (l.map (·.2)).foldl
          (fun agg d => (pgstrom_check_device_capability d agg).2) agg := by
  induction l with
  | nil => intro agg; rfl
  | cons p rest ih =>
    intro agg
    obtain ⟨ord, d⟩ := p
    simp [enumerateDevices, ih, List.foldl_cons]

/-- C3 counterexample.  Two devices: ordinal 0 has compute capability 2.0
(excluded by the predicate) but small memory and few threads; ordinal 1 has
capability 3.5.  The aggregates produced by `pgstrom_init_cuda_control` carry
the excluded device's limits, so they differ from the minimum over the
included set only, refuting the claim as stated. -/
theorem check_device_capability_excluded_devices_influence_aggregates :
    pgstrom_init_cuda_control
        [⟨3 * 2 ^ 20, 512, 2, 0⟩, ⟨300 * 2 ^ 20 + 5, 1024, 3, 5⟩] =
      Except.ok ([1], ⟨2 ^ 20, 512, 200⟩) ∧
    aggregatesOfIncluded
        [⟨3 * 2 ^ 20, 512, 2, 0⟩, ⟨300 * 2 ^ 20 + 5, 1024, 3, 5⟩] =
      ⟨100 * 2 ^ 20, 1024, 305⟩ ∧
    (⟨2 ^ 20, 512, 200⟩ : DeviceAggregates) ≠ ⟨100 * 2 ^ 20, 1024, 305⟩ := by
  refine ⟨by rfl, by rfl, by decide⟩

/-- C3 (amended): after enumeration, the ordinal list contains exactly the
devices whose compute capability major version is at least 3, but the
aggregated limits are the minimum over ALL enumerated devices — excluded
devices do influence them, because `pgstrom_check_device_capability` updates
the aggregates unconditionally; enumeration fails fatally exactly when no
device is accepted. -/
theorem init_cuda_control_aggregates_over_all_devices
    (devs : List DeviceProps) :
    pgstrom_init_cuda_control devs =
      if includedOrdinals devs = [] then .error ()
      else .ok (includedOrdinals devs, aggregatesOfAll devs) := by
  have h1 : (enumerateDevices devs.enum initAggregates).1 =
      includedOrdinals devs := by
    rw [enumerateDevices_ordinals]; rfl
  have h2 : (enumerateDevices devs.enum initAggregates).2 =
      aggregatesOfAll devs := by
    rw [enumerateDevices_aggregates, List.enum_map_snd]; rfl
  rcases henum : enumerateDevices devs.enum initAggregates with ⟨ords, agg⟩
  rw [henum] at h1 h2
  simp only at h1 h2
  subst h1; subst h2
  simp only [pgstrom_init_cuda_control, henum]

/-! ## Device introspection (`pgstrom_device_info`) -/

/-- Attribute-kind tags of the device-info catalog (`DEVATTR_BOOL` etc.). -/
inductive DevAttrKind
  | bool | int | kb | mhz | compMode | bits
deriving DecidableEq, Repr

/-- One entry of the static `catalog[]` array in `pgstrom_device_info`:
attribute name and rendering kind (the CUDA attribute id itself plays no
role in the indexing behaviour and is omitted). -/
structure DevAttrEntry where
  attname : String
  attkind : DevAttrKind
deriving DecidableEq, Repr

/-- The static `catalog[]` array of `pgstrom_device_info`, in source order. -/
def catalog : List DevAttrEntry :=
  [⟨"max threads per block", .int⟩,
   ⟨"Maximum block dimension X", .int⟩,
   ⟨"Maximum block dimension Y", .int⟩,
   ⟨"Maximum block dimension Z", .int⟩,
   ⟨"Maximum grid dimension X", .int⟩,
   ⟨"Maximum grid dimension Y", .int⟩,
   ⟨"Maximum grid dimension Z", .int⟩,
   ⟨"Maximum shared memory available per block", .kb⟩,
   ⟨"Memory available on device for __constant__", .kb⟩,
   ⟨"Warp size in threads", .int⟩,
   ⟨"Maximum pitch in bytes allowed by memory copies", .int⟩,
   ⟨"Maximum number of 32bit registers available per block", .int⟩,
   ⟨"Typical clock frequency in kilohertz", .mhz⟩,
   ⟨"Alignment requirement for textures", .int⟩,
   ⟨"Number of multiprocessors on device", .int⟩,
   ⟨"Has kernel execution timeout", .bool⟩,
   ⟨"Integrated with host memory", .bool⟩,
   ⟨"Host memory can be mapped to CUDA address space", .bool⟩,
   ⟨"Compute mode", .compMode⟩,
   ⟨"Alignment requirement for surfaces", .int⟩,
   ⟨"Multiple concurrent kernel support", .bool⟩,
   ⟨"Device has ECC support enabled", .bool⟩,
   ⟨"PCI bus ID of the device", .int⟩,
   ⟨"PCI device ID of the device", .int⟩,
   ⟨"Device is using TCC driver model", .bool⟩,
   ⟨"Peak memory clock frequency", .mhz⟩,
   ⟨"Global memory bus width", .bits⟩,
   ⟨"Size of L2 cache in bytes", .kb⟩,
   ⟨"Maximum threads per multiprocessor", .int⟩,
   ⟨"Number of asynchronous engines", .int⟩,
   ⟨"Device shares unified address space", .bool⟩,
   ⟨"PCI domain ID of the device", .int⟩,
   ⟨"Major compute capability version number", .int⟩,
   ⟨"Minor compute capability version number", .int⟩,
   ⟨"Device supports stream priorities", .bool⟩,
   ⟨"Device supports caching globals in L1", .bool⟩,
   ⟨"Device supports caching locals in L1", .bool⟩,
   ⟨"Maximum shared memory per multiprocessor", .kb⟩,
   ⟨"Maximum number of 32bit registers per multiprocessor", .int⟩,
   ⟨"Device can allocate managed memory on this system", .bool⟩,
   ⟨"Device is on a multi-GPU board", .bool⟩,
   ⟨"Unique id if device is on a multi-GPU board", .int⟩]

/-- What one invocation of the set-returning function `pgstrom_device_info`
does for a given call counter: finish, produce the device-name row, produce
the total-memory row, or read the catalog at a given array index.  The
source computes `dindex = call_cntr / (lengthof(catalog) + 2)` and
`aindex = call_cntr % (lengthof(catalog) + 2)` and, in the general branch,
accesses `catalog[aindex]` (not `catalog[aindex - 2]`). -/
inductive DeviceInfoRow
  | done
  | deviceName (dindex : Nat)
  | totalMemory (dindex : Nat)
  | catalogRead (dindex : Nat) (arrayIndex : Nat)
deriving DecidableEq, Repr

/-- The row produced by `pgstrom_device_info` at a given call counter, for a
process with `numDevices` initialized CUDA devices. -/
def pgstrom_device_info (numDevices : Nat) (callCntr : Nat) : DeviceInfoRow :=
  let dindex := callCntr / (catalog.length + 2)
  let aindex := callCntr % (catalog.length + 2)
  if dindex ≥ numDevices then .done
  else if aindex = 0 then .deviceName dindex
  else if aindex = 1 then .totalMemory dindex
  else .catalogRead dindex aindex

/-- The catalog index a call reads, when it reads one. -/
def deviceInfoAccessedIndex (numDevices callCntr : Nat) : Option Nat :=
  match pgstrom_device_info numDevices callCntr with
  | .catalogRead _ i => some i
  | _ => none

/-- C10: the claim that every catalog access of `pgstrom_device_info` is in
bounds is violated by the code.  With one device, call counter 42 yields
`aindex = 42 = lengthof(catalog)` and the code reads `catalog[42]`, one past
the end of the 42-entry array (call counter 43 likewise reads
`catalog[43]`); moreover the claimed correspondence fails even in bounds:
the first row after the two special rows (call counter 2) reads
`catalog[2]`, not `catalog[0]`. -/
theorem device_info_catalog_read_out_of_bounds :
    deviceInfoAccessedIndex 1 42 = some 42 ∧
    deviceInfoAccessedIndex 1 43 = some 43 ∧
    catalog.length = 42 ∧
    ¬ (42 < catalog.length) ∧
    deviceInfoAccessedIndex 1 2 = some 2 := by
  refine ⟨by rfl, by rfl, by rfl, by decide, by rfl⟩

/-! ## Workgroup sizing (`pgstrom_compute_workgroup_size`) -/

/-- Conversion of the C `int block_size` to `size_t` as it happens inside
`dynamic_shmem_per_thread * block_size`: two's-complement reinterpretation
modulo `2^64`. -/
def toSizeT (bs : Int) : Nat := (bs % (2 : Int) ^ 64).toNat

/-- The shrink-loop condition
`dynamic_shmem_per_block + dynamic_shmem_per_thread * block_size >
 maximum_shmem_per_block`, evaluated in `size_t` arithmetic (the `int`
operands are converted to the unsigned type): `staticSh` is the kernel's
static shared memory (the variable named `dynamic_shmem_per_block` in the
source holds `CU_FUNC_ATTRIBUTE_SHARED_SIZE_BYTES`). -/
def shmemCond (staticSh dyn maxSh : Nat) (bs : Int) : Bool :=
  (staticSh + dyn * toSizeT bs) % 2 ^ 64 > maxSh

/-- The `while (...) block_size--;` loop of the maximum-block-size branch,
with explicit fuel; `none` means the fuel ran out before the loop exited. -/
def wgLoop (staticSh dyn maxSh : Nat) : Nat → Int → Option Int
  | 0, _ => none
  | fuel + 1, bs =>
    if shmemCond staticSh dyn maxSh bs then
      wgLoop staticSh dyn maxSh fuel (bs - 1)
    else
      some bs

/-- Results a driver query can produce in the model: `none` is a failing
driver call (`elog(ERROR, ...)` aborts the function). -/
structure WGDriver where
  staticShmem : Option Nat      -- CU_FUNC_ATTRIBUTE_SHARED_SIZE_BYTES
  funcMaxThreads : Option Nat   -- CU_FUNC_ATTRIBUTE_MAX_THREADS_PER_BLOCK
  devMaxShmem : Option Nat      -- CU_DEVICE_ATTRIBUTE_MAX_SHARED_MEMORY_PER_BLOCK
  warpSize : Option Nat         -- CU_DEVICE_ATTRIBUTE_WARP_SIZE
  occupancy : Option (Nat × Nat)  -- cuOccupancyMaxPotentialBlockSize: (grid_size, block_size)
deriving DecidableEq, Repr

/-- Outcome of `pgstrom_compute_workgroup_size`: a `(grid_size, block_size)`
pair written through the out parameters, an `elog(ERROR, ...)` abort, or
exhaustion of the loop fuel (the source loop simply has not exited yet). -/
inductive WGResult
  | ok (gridSize blockSize : Nat)
  | err
  | fuelOut
deriving DecidableEq, Repr

/-- `pgstrom_compute_workgroup_size`: fetches the kernel's static shared
memory, then either (maximum-block-size mode) fetches the kernel's maximum
threads per block, the device shared-memory limit and the warp size, runs
the shrink loop and errors out when the result is below the warp size, or
(maximum-occupancy mode) takes both grid size and block size directly from
`cuOccupancyMaxPotentialBlockSize` — in that branch `nitems` is not used. -/
def pgstrom_compute_workgroup_size (d : WGDriver) (maximumBlocksize : Bool)
    (nitems dynPerThread : Nat) (fuel : Nat) : WGResult :=
  match d.staticShmem with
  | none => .err
  | some staticSh =>
    if maximumBlocksize then
      match d.funcMaxThreads with
      | none => .err
      | some initBs =>
        match d.devMaxShmem with
        | none => .err
        | some maxSh =>
          match d.warpSize with
          | none => .err
          | some warp =>
            match wgLoop staticSh dynPerThread maxSh fuel (initBs : Int) with
            | none => .fuelOut
            | some bs =>
              if bs < (warp : Int) then .err
              else .ok ((nitems + bs.toNat - 1) / bs.toNat) bs.toNat
    else
      match d.occupancy with
      | none => .err
      | some gb => .ok gb.1 gb.2

/-- The maximum-block-size mode terminates on given inputs when some amount
of fuel suffices for the shrink loop to exit. -/
def wgMaxBlockTerminates (d : WGDriver) (nitems dynPerThread : Nat) : Prop :=
  ∃ fuel, pgstrom_compute_workgroup_size d true nitems dynPerThread fuel ≠
    .fuelOut

theorem shmemCond_iff (staticSh dyn maxSh : Nat) (bs : Int) (h0 : 0 ≤ bs)
    (h1 : bs < 2 ^ 64) (hnw : staticSh + dyn * bs.toNat < 2 ^ 64) :
    shmemCond staticSh dyn maxSh bs = true ↔
      maxSh < staticSh + dyn * bs.toNat := by
  unfold shmemCond toSizeT
  rw [Int.emod_eq_of_lt h0 (by exact_mod_cast h1), Nat.mod_eq_of_lt hnw]
  simp [gt_iff_lt]

/-- With a zero per-thread requirement, the loop condition does not depend
on the block size, so the loop never exits once the static footprint alone
exceeds the device limit. -/
theorem wgLoop_static_overflow_none (staticSh maxSh : Nat)
    (hgt : maxSh < staticSh) (hlt : staticSh < 2 ^ 64) :
    ∀ (fuel : Nat) (bs : Int), wgLoop staticSh 0 maxSh fuel bs = none := by
  intro fuel
  induction fuel with
  | zero => intro bs; rfl
  | succ n ih =>
    intro bs
    have hc : shmemCond staticSh 0 maxSh bs = true := by
      unfold shmemCond
      rw [Nat.zero_mul, Nat.add_zero, Nat.mod_eq_of_lt hlt]
      simpa using hgt
    simp [wgLoop, hc, ih]

theorem wgLoop_succ (staticSh dyn maxSh : Nat) (fuel : Nat) (bs : Int) :
    wgLoop staticSh dyn maxSh (fuel + 1) bs =
      if shmemCond staticSh dyn maxSh bs then
        wgLoop staticSh dyn maxSh fuel (bs - 1)
      else some bs := rfl

/-- If the static footprint fits the device limit, the shrink loop exits at
a nonnegative block size no larger than the start value and satisfying the
shared-memory bound. -/
theorem wgLoop_exit (staticSh dyn maxSh : Nat) (hle : staticSh ≤ maxSh) :
    ∀ (n : Nat) (bs : Int), 0 ≤ bs → bs < 2 ^ 64 → bs.toNat ≤ n →
      staticSh + dyn * bs.toNat < 2 ^ 64 →
      ∃ bs', wgLoop staticSh dyn maxSh (n + 1) bs = some bs' ∧
        0 ≤ bs' ∧ bs' ≤ bs ∧ staticSh + dyn * bs'.toNat ≤ maxSh := by
  intro n
  induction n with
  | zero =>
    intro bs h0 h1 hn hnw
    have hbs : bs = 0 := by omega
    subst hbs
    have hc : shmemCond staticSh dyn maxSh 0 = false := by
      rw [Bool.eq_false_iff, Ne, shmemCond_iff staticSh dyn maxSh 0 h0 h1 hnw]
      simp; omega
    refine ⟨0, ?_, le_refl 0, le_refl 0, ?_⟩
    · simp [wgLoop, hc]
    · simpa using hle
  | succ n ih =>
    intro bs h0 h1 hn hnw
    by_cases hc : shmemCond staticSh dyn maxSh bs = true
    · have hlt : maxSh < staticSh + dyn * bs.toNat :=
        (shmemCond_iff staticSh dyn maxSh bs h0 h1 hnw).mp hc
      have hbs1 : 1 ≤ bs := by
        have hbz : bs.toNat ≠ 0 := by
          intro hz
          rw [hz, Nat.mul_zero] at hlt
          omega
        omega
      have hrec := ih (bs - 1) (by omega) (by omega) (by omega)
        (by
          have : dyn * (bs - 1).toNat ≤ dyn * bs.toNat :=
            Nat.mul_le_mul_left dyn (by omega)
          omega)
      obtain ⟨bs', hloop, hb0, hble, hbnd⟩ := hrec
      refine ⟨bs', ?_, hb0, by omega, hbnd⟩
      rw [wgLoop_succ]
      simp [hc, hloop]
    · rw [Bool.not_eq_true] at hc
      have hge : staticSh + dyn * bs.toNat ≤ maxSh := by
        by_contra habs
        rw [Bool.eq_false_iff, Ne,
            shmemCond_iff staticSh dyn maxSh bs h0 h1 hnw] at hc
        omega
      exact ⟨bs, by simp [wgLoop, hc], h0, le_refl bs, hge⟩

/-- C4 counterexample: with a static shared-memory footprint of 100 bytes
against a device limit of 50 bytes and a zero per-thread requirement, the
shrink loop's condition never becomes false, so the maximum-block-size mode
never terminates — it neither returns a block size nor raises the fatal
configuration error, refuting the claim for this combination. -/
theorem workgroup_max_blocksize_no_termination :
    ¬ wgMaxBlockTerminates ⟨some 100, some 64, some 50, some 32, none⟩ 10 0 := by
  rintro ⟨fuel, hne⟩
  apply hne
  simp [pgstrom_compute_workgroup_size,
        wgLoop_static_overflow_none 100 50 (by norm_num) (by norm_num) fuel]

/-- C4 (amended): when the kernel's static shared-memory footprint fits the
device limit (and the driver-reported quantities are in their C `int`/no-
overflow ranges), the maximum-block-size mode terminates and either raises
the fatal configuration error or returns a block size at least the warp
size satisfying `static + dyn_per_thread * block ≤ device_max` with grid
size `ceil(nitems / block)`; whatever the fuel, a returned block size is
never below the warp size.  Without the `static ≤ device_max` hypothesis
the loop need not terminate. -/
theorem workgroup_max_blocksize_bounds
    (staticSh initBs maxSh warp nitems dyn : Nat)
    (hle : staticSh ≤ maxSh)
    (hinit : initBs < 2 ^ 31)
    (hnw : staticSh + dyn * initBs < 2 ^ 64) :
    (∃ fuel r,
      pgstrom_compute_workgroup_size
          ⟨some staticSh, some initBs, some maxSh, some warp, none⟩
          true nitems dyn fuel = r ∧
      (r = .err ∨ ∃ g b, r = .ok g b ∧ warp ≤ b ∧
        staticSh + dyn * b ≤ maxSh ∧ g = (nitems + b - 1) / b)) ∧
    (∀ fuel g b,
      pgstrom_compute_workgroup_size
          ⟨some staticSh, some initBs, some maxSh, some warp, none⟩
          true nitems dyn fuel = .ok g b → warp ≤ b) := by
  constructor
  · obtain ⟨bs', hloop, hb0, hble, hbnd⟩ :=
      wgLoop_exit staticSh dyn maxSh hle initBs (initBs : Int)
        (by positivity) (by exact_mod_cast lt_trans hinit (by norm_num))
        (by simp) (by simpa using hnw)
    refine ⟨initBs + 1, _, rfl, ?_⟩
    by_cases hw : bs' < (warp : Int)
    · left
      simp [pgstrom_compute_workgroup_size, hloop, hw]
    · right
      refine ⟨(nitems + bs'.toNat - 1) / bs'.toNat, bs'.toNat, ?_, ?_, ?_, rfl⟩
      · simp [pgstrom_compute_workgroup_size, hloop, hw]
      · omega
      · exact hbnd
  · intro fuel g b hok
    rcases hloop : wgLoop staticSh dyn maxSh fuel (initBs : Int) with _ | bs
    · simp [pgstrom_compute_workgroup_size, hloop] at hok
    · by_cases hw : bs < (warp : Int)
      · simp [pgstrom_compute_workgroup_size, hloop, hw] at hok
      · simp [pgstrom_compute_workgroup_size, hloop, hw] at hok
        omega

/-- Witness for C4 (amended) at static 32, start 64, limit 100, warp 32,
1000 items, one byte of dynamic shared memory per thread. -/
theorem workgroup_max_blocksize_bounds_witness :
    ((32 : Nat) ≤ 100 ∧ (64 : Nat) < 2 ^ 31 ∧ 32 + 1 * 64 < 2 ^ 64) ∧
    ((∃ fuel r,
      pgstrom_compute_workgroup_size
          ⟨some 32, some 64, some 100, some 32, none⟩ true 1000 1 fuel = r ∧
      (r = .err ∨ ∃ g b, r = .ok g b ∧ 32 ≤ b ∧
        32 + 1 * b ≤ 100 ∧ g = (1000 + b - 1) / b)) ∧
    (∀ fuel g b,
      pgstrom_compute_workgroup_size
          ⟨some 32, some 64, some 100, some 32, none⟩ true 1000 1 fuel =
        .ok g b → 32 ≤ b)) :=
  ⟨⟨by norm_num, by norm_num, by norm_num⟩,
   workgroup_max_blocksize_bounds 32 64 100 32 1000 1
     (by norm_num) (by norm_num) (by norm_num)⟩

/-- C5 counterexample: in maximum-occupancy mode the code copies both the
grid size and the block size straight from
`cuOccupancyMaxPotentialBlockSize`; with the driver heuristic reporting
grid size 5 and block size 128 for a single item, the returned grid size is
5, not `ceil(1 / 128) = 1`, refuting the claimed grid-size formula. -/
theorem workgroup_occupancy_grid_not_ceil :
    pgstrom_compute_workgroup_size ⟨some 0, none, none, none, some (5, 128)⟩
        false 1 0 0 = .ok 5 128 ∧
    (5 : Nat) ≠ (1 + 128 - 1) / 128 := ⟨rfl, by decide⟩

/-- C5 (amended): in maximum-occupancy mode the computation returns the
occupancy-optimal block size from the driver heuristic together with the
grid size also reported by the heuristic (its minimal grid size for maximal
occupancy); the item count plays no role in this branch. -/
theorem workgroup_occupancy_uses_driver_grid (d : WGDriver)
    (nitems nitems' dyn fuel s g b : Nat)
    (hs : d.staticShmem = some s) (hocc : d.occupancy = some (g, b)) :
    pgstrom_compute_workgroup_size d false nitems dyn fuel = .ok g b ∧
    pgstrom_compute_workgroup_size d false nitems dyn fuel =
      pgstrom_compute_workgroup_size d false nitems' dyn fuel := by
  constructor
  · simp [pgstrom_compute_workgroup_size, hs, hocc]
  · simp [pgstrom_compute_workgroup_size, hs, hocc]

/-- Witness for C5 (amended): the driver heuristic reports grid 7 and
block 256; both are returned unchanged for 5 items and for 9 items. -/
theorem workgroup_occupancy_uses_driver_grid_witness :
    ((⟨some 0, none, none, none, some (7, 256)⟩ : WGDriver).staticShmem =
        some 0 ∧
     (⟨some 0, none, none, none, some (7, 256)⟩ : WGDriver).occupancy =
        some (7, 256)) ∧
    (pgstrom_compute_workgroup_size
        ⟨some 0, none, none, none, some (7, 256)⟩ false 5 0 0 = .ok 7 256 ∧
     pgstrom_compute_workgroup_size
        ⟨some 0, none, none, none, some (7, 256)⟩ false 5 0 0 =
       pgstrom_compute_workgroup_size
        ⟨some 0, none, none, none, some (7, 256)⟩ false 9 0 0) :=
  ⟨⟨rfl, rfl⟩,
   workgroup_occupancy_uses_driver_grid _ 5 9 0 0 0 7 256 rfl rfl⟩

/-! ## Context pool / scope registry
(`pgstrom_get_gpucontext`, `pgstrom_put_gpucontext`,
`gpucontext_cleanup_callback`) -/

/-- Scope handle: the `ResourceOwner` pointer used as lookup key, modelled
as an opaque natural number. -/
abbrev ResourceOwner := Nat

/-- The fields of `GpuContext` that the registry operations touch:
reference count (a C `int`, so modelled as `Int` to express the
non-negativity claim) and the owning scope. -/
structure GpuContext where
  refcnt : Int
  resowner : ResourceOwner
deriving DecidableEq, Repr

/-- `lengthof(gcontext_hash)`: the registry has 100 hash buckets. -/
def NUM_BUCKETS : Nat := 100

/-- `gpucontext_hash_index`: CRC32C of the opaque `ResourceOwner` pointer
reduced modulo the bucket count.  The CRC of an opaque handle is modelled
as the handle itself, so the bucket index is `r % 100`; nothing in the
registry logic depends on which fixed function is used. -/
def gpucontext_hash_index (r : ResourceOwner) : Nat := r % NUM_BUCKETS

/-- The registry's shared state: the bucket table `gcontext_hash` (context
ids in chain order, `dlist_push_tail` appends), the allocated contexts
(an id-keyed association list standing for the heap), the
most-recently-used slot `gcontext_last`, and the id allocator. -/
structure RegistryState where
  buckets : List (List Nat)
  heap : List (Nat × GpuContext)
  last : Option Nat
  nextId : Nat
deriving DecidableEq, Repr

/-- State after `pgstrom_init_cuda_control` initialized the bucket table. -/
def emptyRegistry : RegistryState :=
  ⟨List.replicate NUM_BUCKETS [], [], none, 0⟩

def heapFind (h : List (Nat × GpuContext)) (id : Nat) : Option GpuContext :=
  (h.find? (fun p => p.1 = id)).map (·.2)

def heapUpdate (h : List (Nat × GpuContext)) (id : Nat) (c : GpuContext) :
    List (Nat × GpuContext) :=
  h.map (fun p => if p.1 = id then (id, c) else p)

def heapErase (h : List (Nat × GpuContext)) (id : Nat) :
    List (Nat × GpuContext) :=
  h.filter (fun p => p.1 ≠ id)

def bucketGet (st : RegistryState) (i : Nat) : List Nat :=
  st.buckets.getD i []

/-- The `dlist_foreach` scan of one hash chain in `pgstrom_get_gpucontext`
and `gpucontext_cleanup_callback`: first context in chain order whose
`resowner` matches. -/
def scanBucket (h : List (Nat × GpuContext)) (r : ResourceOwner) :
    List Nat → Option Nat
  | [] => none
  | id :: rest =>
    match heapFind h id with
    | some c => if c.resowner = r then some id else scanBucket h r rest
    | none => scanBucket h r rest

/-- `gcontext->refcnt++` on the context with the given id. -/
def incrRef (st : RegistryState) (id : Nat) : RegistryState :=
  { st with heap := st.heap.map (fun p =>
      if p.1 = id then (p.1, { p.2 with refcnt := p.2.refcnt + 1 }) else p) }

/-- `pgstrom_create_gpucontext`: the new context starts with reference
count 1 and the requesting scope (arena creation has no registry-visible
effect beyond the fresh context itself). -/
def pgstrom_create_gpucontext (r : ResourceOwner) : GpuContext := ⟨1, r⟩

/-- The slow path of `pgstrom_get_gpucontext`: scan the scope's hash chain;
on a hit increment the reference count, on a miss create a new context and
push it at the tail of the chain.  As in the source, the most-recently-used
slot `gcontext_last` is NOT updated on either path. -/
def getSlowPath (r : ResourceOwner) (st : RegistryState) :
    Nat × RegistryState :=
  match scanBucket st.heap r (bucketGet st (gpucontext_hash_index r)) with
  | some id => (id, incrRef st id)
  | none =>
    (st.nextId,
     { st with
        heap := st.heap ++ [(st.nextId, pgstrom_create_gpucontext r)],
        buckets := st.buckets.set (gpucontext_hash_index r)
          (bucketGet st (gpucontext_hash_index r) ++ [st.nextId]),
        nextId := st.nextId + 1 })

/-- `pgstrom_get_gpucontext` for the current scope `r`: fast path through
`gcontext_last` when it holds a context owned by `r`, otherwise the slow
path.  Returns the context id and the new registry state. -/
def pgstrom_get_gpucontext (r : ResourceOwner) (st : RegistryState) :
    Nat × RegistryState :=
  match st.last with
  | some lid =>
    match heapFind st.heap lid with
    | some c =>
      if c.resowner = r then (lid, incrRef st lid) else getSlowPath r st
    | none => getSlowPath r st
  | none => getSlowPath r st

/-- `pgstrom_put_gpucontext`: decrement the reference count under the lock;
on reaching zero clear `gcontext_last` if it points to this context, unlink
the context from its chain and tear it down (the teardown frees the memory
context holding the `GpuContext` itself, so the context leaves the heap).
The returned flag is `do_release`: whether this release triggered physical
teardown. -/
def pgstrom_put_gpucontext (id : Nat) (st : RegistryState) :
    RegistryState × Bool :=
  match heapFind st.heap id with
  | none => (st, false)
  | some c =>
    if c.refcnt - 1 = 0 then
      ({ st with
          last := if st.last = some id then none else st.last,
          buckets := st.buckets.map (fun l => l.filter (· ≠ id)),
          heap := heapErase st.heap id },
       true)
    else
      ({ st with heap := heapUpdate st.heap id { c with refcnt := c.refcnt - 1 } },
       false)

/-- The host's resource-release phases. -/
inductive ResourceReleasePhase
  | beforeLocks | locks | afterLocks
deriving DecidableEq, Repr

/-- `gpucontext_cleanup_callback`: does nothing unless invoked at
`RESOURCE_RELEASE_AFTER_LOCKS`; otherwise scans the current scope's hash
chain and, when a context of that scope is still registered, unlinks it
(clearing the most-recently-used slot if it points there), warns when the
scope committed, and tears the context down.  Returns the new state, the
number of forgotten-context warnings emitted by the callback itself, and
whether a teardown was performed. -/
def gpucontext_cleanup_callback (phase : ResourceReleasePhase)
    (isCommit : Bool) (r : ResourceOwner) (st : RegistryState) :
    RegistryState × Nat × Bool :=
  if phase ≠ .afterLocks then (st, 0, false)
  else
    match scanBucket st.heap r (bucketGet st (gpucontext_hash_index r)) with
    | none => (st, 0, false)
    | some id =>
      ({ st with
          last := if st.last = some id then none else st.last,
          buckets := st.buckets.map (fun l => l.filter (· ≠ id)),
          heap := heapErase st.heap id },
       (if isCommit then 1 else 0), true)

/-- Repeated acquisition: the ids handed out by `n` successive
`pgstrom_get_gpucontext` calls for scope `r`, with the final state. -/
def acquireN (r : ResourceOwner) : Nat → RegistryState → List Nat × RegistryState
  | 0, st => ([], st)
  | n + 1, st =>
    let (id, st') := pgstrom_get_gpucontext r st
    let (ids, st'') := acquireN r n st'
    (id :: ids, st'')

/-- Repeated release: applies `pgstrom_put_gpucontext` `n` times to the
same id, counting how many of the releases triggered teardown. -/
def releaseN (id : Nat) : Nat → RegistryState → RegistryState × Nat
  | 0, st => (st, 0)
  | n + 1, st =>
    let (st', b) := pgstrom_put_gpucontext id st
    let (st'', k) := releaseN id n st'
    (st'', (if b then 1 else 0) + k)

theorem getSlowPath_last (r : ResourceOwner) (st : RegistryState) :
    (getSlowPath r st).2.last = st.last := by
  unfold getSlowPath
  cases h : scanBucket st.heap r (bucketGet st (gpucontext_hash_index r)) with
  | none => rfl
  | some id => rfl

/-- C6: `pgstrom_get_gpucontext` never writes `gcontext_last` — not on the
fast path, not on a bucket hit, and in particular not after creating a new
context on a miss.  After the very first acquisition (a miss on the empty
registry) the most-recently-used slot is still unset even though the new
context id 0 was created, registered and returned, so the immediately
following acquire for the same scope cannot take the fast path. -/
theorem get_gpucontext_leaves_mru_unset :
    (∀ (r : ResourceOwner) (st : RegistryState),
      (pgstrom_get_gpucontext r st).2.last = st.last) ∧
    (pgstrom_get_gpucontext 0 emptyRegistry).1 = 0 ∧
    heapFind (pgstrom_get_gpucontext 0 emptyRegistry).2.heap 0 =
      some (pgstrom_create_gpucontext 0) ∧
    (pgstrom_get_gpucontext 0 emptyRegistry).2.last = none := by
  refine ⟨?_, by rfl, by rfl, by rfl⟩
  intro r st
  unfold pgstrom_get_gpucontext
  cases hl : st.last with
  | none => rw [getSlowPath_last, hl]
  | some lid =>
    cases hf : heapFind st.heap lid with
    | none =>
      simp only [hf]
      rw [getSlowPath_last, hl]
    | some c =>
      by_cases hr : c.resowner = r
      · simp only [hf, hr, if_true]
        exact hl
      · simp only [hf, hr, if_false]
        rw [getSlowPath_last, hl]

/-- C8: the scope-boundary cleanup hook is a no-op whenever it is invoked
at a phase other than `RESOURCE_RELEASE_AFTER_LOCKS`, or when no context
owned by the current scope is registered in that scope's hash chain (the
context was already removed): the registry state is unchanged, no warning
is emitted and no teardown happens. -/
theorem cleanup_callback_noop (phase : ResourceReleasePhase)
    (isCommit : Bool) (r : ResourceOwner) (st : RegistryState)
    (h : phase ≠ .afterLocks ∨
      scanBucket st.heap r (bucketGet st (gpucontext_hash_index r)) = none) :
    gpucontext_cleanup_callback phase isCommit r st = (st, 0, false) := by
  unfold gpucontext_cleanup_callback
  by_cases hp : phase = ResourceReleasePhase.afterLocks
  · rcases h with h | h
    · exact absurd hp h
    · simp [hp, h]
  · simp [hp]

/-- Witness for C8: invoking the hook at the before-locks phase on the
empty registry changes nothing. -/
theorem cleanup_callback_noop_witness :
    (ResourceReleasePhase.beforeLocks ≠ ResourceReleasePhase.afterLocks ∨
      scanBucket emptyRegistry.heap 3
        (bucketGet emptyRegistry (gpucontext_hash_index 3)) = none) ∧
    gpucontext_cleanup_callback .beforeLocks true 3 emptyRegistry =
      (emptyRegistry, 0, false) :=
  ⟨Or.inl (by decide),
   cleanup_callback_noop .beforeLocks true 3 emptyRegistry (Or.inl (by decide))⟩

/-! ### Lock/creation ordering in `pgstrom_get_gpucontext` (C7) -/

/-- The observable steps of one `pgstrom_get_gpucontext` call, in program
order. -/
inductive AcqEvent
  | lockAcquire | refIncrement | createContext | insertBucket | lockRelease
deriving DecidableEq, Repr

/-- Steps of the slow path: bucket hit increments under the lock; a miss
calls `pgstrom_create_gpucontext` (memory-context creation and possibly
CUDA initialization) and then `dlist_push_tail`, both before
`SpinLockRelease`. -/
def acquireSlowEvents (r : ResourceOwner) (st : RegistryState) :
    List AcqEvent :=
  match scanBucket st.heap r (bucketGet st (gpucontext_hash_index r)) with
  | some _ => [.refIncrement, .lockRelease]
  | none => [.createContext, .insertBucket, .lockRelease]

/-- Program-order step trace of `pgstrom_get_gpucontext`: the spinlock is
taken first, before the fast-path check. -/
def acquireEvents (r : ResourceOwner) (st : RegistryState) : List AcqEvent :=
  .lockAcquire ::
    (match st.last with
     | some lid =>
       match heapFind st.heap lid with
       | some c =>
         if c.resowner = r then [.refIncrement, .lockRelease]
         else acquireSlowEvents r st
       | none => acquireSlowEvents r st
     | none => acquireSlowEvents r st)

/-- The events strictly between the lock acquisition and the lock release:
everything after the first `lockAcquire` and before the next
`lockRelease`. -/
def criticalSection (evts : List AcqEvent) : List AcqEvent :=
  ((evts.dropWhile (fun e => e ≠ .lockAcquire)).drop 1).takeWhile
    (fun e => e ≠ .lockRelease)

/-- C7 counterexample: on a miss (here: the very first acquisition), the
context creation step happens inside the spinlock-protected critical
section — `pgstrom_create_gpucontext` is called between `SpinLockAcquire`
and `SpinLockRelease` — refuting the claim that allocation happens outside
the critical section. -/
theorem acquire_creates_inside_lock :
    acquireEvents 0 emptyRegistry =
      [.lockAcquire, .createContext, .insertBucket, .lockRelease] ∧
    AcqEvent.createContext ∈ criticalSection (acquireEvents 0 emptyRegistry) := by
  refine ⟨by rfl, by decide⟩

/-- C7 (amended): every `pgstrom_get_gpucontext` call takes the lock first
and releases it last; on a hit the critical section contains only the
reference-count increment, and on a miss the context is created INSIDE the
critical section, immediately before its insertion into the bucket table —
creation does precede insertion, but it is not outside the lock. -/
theorem acquire_critical_section_shape (r : ResourceOwner)
    (st : RegistryState) :
    acquireEvents r st = [.lockAcquire, .refIncrement, .lockRelease] ∨
    acquireEvents r st =
      [.lockAcquire, .createContext, .insertBucket, .lockRelease] := by
  unfold acquireEvents acquireSlowEvents
  cases hl : st.last with
  | none =>
    cases hs : scanBucket st.heap r (bucketGet st (gpucontext_hash_index r)) with
    | none => right; simp [hs]
    | some id => left; simp [hs]
  | some lid =>
    cases hf : heapFind st.heap lid with
    | none =>
      cases hs : scanBucket st.heap r (bucketGet st (gpucontext_hash_index r)) with
      | none => right; simp [hf, hs]
      | some id => left; simp [hf, hs]
    | some c =>
      by_cases hr : c.resowner = r
      · left; simp [hf, hr]
      · cases hs : scanBucket st.heap r (bucketGet st (gpucontext_hash_index r)) with
        | none => right; simp [hf, hr, hs]
        | some id => left; simp [hf, hr, hs]

/-! ### Reference counting through N acquires and N releases (C1) -/

/-- The registry state reached from the empty registry by acquiring scope
`r`'s context (id 0) and bringing its reference count to `m`. -/
def stateR (r : ResourceOwner) (m : Nat) : RegistryState :=
  ⟨(List.replicate NUM_BUCKETS ([] : List Nat)).set
      (gpucontext_hash_index r) [0],
   [(0, ⟨(m : Int), r⟩)], none, 1⟩

/-- The registry state after the teardown of scope `r`'s context id 0. -/
def drainedState (r : ResourceOwner) : RegistryState :=
  ⟨((List.replicate NUM_BUCKETS ([] : List Nat)).set
      (gpucontext_hash_index r) [0]).map (fun l => l.filter (· ≠ 0)),
   [], none, 1⟩

theorem bucketGet_emptyRegistry (i : Nat) : bucketGet emptyRegistry i = [] := by
  simp [bucketGet, emptyRegistry, List.getD]

theorem hash_lt_buckets (r : ResourceOwner) :
    gpucontext_hash_index r < NUM_BUCKETS :=
  Nat.mod_lt r (by norm_num [NUM_BUCKETS])

theorem bucketGet_stateR (r : ResourceOwner) (m : Nat) :
    bucketGet (stateR r m) (gpucontext_hash_index r) = [0] := by
  unfold bucketGet stateR
  rw [List.getD, List.get?_eq_getElem?,
    List.getElem?_set_self (by simpa using hash_lt_buckets r)]
  rfl

theorem bucketGet_drainedState (r : ResourceOwner) (i : Nat) :
    0 ∉ bucketGet (drainedState r) i := by
  intro hmem
  unfold bucketGet drainedState at hmem
  rw [List.getD, List.get?_eq_getElem?, List.getElem?_map] at hmem
  rcases hb : ((List.replicate NUM_BUCKETS ([] : List Nat)).set
      (gpucontext_hash_index r) [0])[i]? with _ | b
  · rw [hb] at hmem; simp at hmem
  · rw [hb] at hmem
    simp only [Option.map_some', Option.getD_some] at hmem
    have := List.of_mem_filter hmem
    simp at this

theorem get_gpucontext_empty (r : ResourceOwner) :
    pgstrom_get_gpucontext r emptyRegistry = (0, stateR r 1) := by
  unfold pgstrom_get_gpucontext getSlowPath
  rw [show emptyRegistry.last = none from rfl, bucketGet_emptyRegistry]
  simp [scanBucket, emptyRegistry, stateR, pgstrom_create_gpucontext]

theorem get_gpucontext_stateR (r : ResourceOwner) (m : Nat) :
    pgstrom_get_gpucontext r (stateR r m) = (0, stateR r (m + 1)) := by
  unfold pgstrom_get_gpucontext getSlowPath
  rw [show (stateR r m).last = none from rfl, bucketGet_stateR]
  simp [scanBucket, heapFind, incrRef, stateR]

theorem acquireN_stateR (r : ResourceOwner) (n : Nat) :
    ∀ m, acquireN r n (stateR r m) = (List.replicate n 0, stateR r (m + n)) := by
  induction n with
  | zero => intro m; rfl
  | succ k ih =>
    intro m
    have hmk : m + 1 + k = m + (k + 1) := by omega
    simp only [acquireN, get_gpucontext_stateR, ih (m + 1), hmk,
      List.replicate_succ]

theorem acquireN_empty (r : ResourceOwner) (N : Nat) (h : 0 < N) :
    acquireN r N emptyRegistry = (List.replicate N 0, stateR r N) := by
  obtain ⟨n, rfl⟩ : ∃ n, N = n + 1 := ⟨N - 1, by omega⟩
  have h1n : 1 + n = n + 1 := by omega
  simp only [acquireN, get_gpucontext_empty, acquireN_stateR, h1n,
    List.replicate_succ]

theorem put_gpucontext_stateR_pos (r : ResourceOwner) (m : Nat)
    (hm : 2 ≤ m) :
    pgstrom_put_gpucontext 0 (stateR r m) = (stateR r (m - 1), false) := by
  unfold pgstrom_put_gpucontext
  simp only [stateR, heapFind]
  have hne : ((m : Int) - 1 = 0) = False := by
    simp; omega
  simp [hne, heapUpdate, stateR]
  omega

theorem put_gpucontext_stateR_one (r : ResourceOwner) :
    pgstrom_put_gpucontext 0 (stateR r 1) = (drainedState r, true) := by
  unfold pgstrom_put_gpucontext
  simp [stateR, heapFind, heapErase, drainedState]

theorem releaseN_stateR (r : ResourceOwner) :
    ∀ k m, k < m → releaseN 0 k (stateR r m) = (stateR r (m - k), 0) := by
  intro k
  induction k with
  | zero => intro m _; rfl
  | succ j ih =>
    intro m hk
    have hmj : m - 1 - j = m - (j + 1) := by omega
    simp only [releaseN, put_gpucontext_stateR_pos r m (by omega),
      ih (m - 1) (by omega), hmj]
    simp

theorem releaseN_stateR_full (r : ResourceOwner) :
    ∀ m, 1 ≤ m → releaseN 0 m (stateR r m) = (drainedState r, 1) := by
  intro m
  induction m with
  | zero => omega
  | succ j ih =>
    intro _
    rcases Nat.eq_zero_or_pos j with hj | hj
    · subst hj
      simp [releaseN, put_gpucontext_stateR_one r]
    · simp [releaseN, put_gpucontext_stateR_pos r (j + 1) (by omega),
        Nat.add_sub_cancel, ih hj]

/-- C1: starting from the empty registry, `N` acquisitions for scope `r`
all return context id 0 and leave it with reference count `N`.  Each of the
first `N - 1` releases only decrements the count — the context stays in the
heap and in its hash chain, and no teardown is triggered — while the run of
`N` releases triggers exactly one teardown (by its last step), after which
the context is unregistered and the most-recently-used slot does not point
to it.  The reference count after `k ≤ N` releases is `N - k`, never
negative.  In addition, whenever a release drops a context's count from 1
to 0 while the most-recently-used slot points to it, the slot is cleared. -/
theorem refcount_acquire_release_lifecycle (r N k : Nat)
    (hN : 0 < N) (hk : k ≤ N) :
    (acquireN r N emptyRegistry).1 = List.replicate N 0 ∧
    heapFind (acquireN r N emptyRegistry).2.heap 0 = some ⟨(N : Int), r⟩ ∧
    (releaseN 0 k (acquireN r N emptyRegistry).2).2 =
      (if k = N then 1 else 0) ∧
    (k < N →
      heapFind (releaseN 0 k (acquireN r N emptyRegistry).2).1.heap 0 =
        some ⟨(N : Int) - (k : Int), r⟩ ∧
      0 ∈ bucketGet (releaseN 0 k (acquireN r N emptyRegistry).2).1
            (gpucontext_hash_index r)) ∧
    (k = N →
      heapFind (releaseN 0 k (acquireN r N emptyRegistry).2).1.heap 0 =
        none ∧
      0 ∉ bucketGet (releaseN 0 k (acquireN r N emptyRegistry).2).1
            (gpucontext_hash_index r) ∧
      (releaseN 0 k (acquireN r N emptyRegistry).2).1.last = none) ∧
    (0 : Int) ≤ (N : Int) - (k : Int) ∧
    (∀ (st : RegistryState) (id : Nat) (c : GpuContext),
      heapFind st.heap id = some c → c.refcnt = 1 → st.last = some id →
      (pgstrom_put_gpucontext id st).1.last = none) := by
  have hacq := acquireN_empty r N hN
  refine ⟨by rw [hacq], ?_, ?_, ?_, ?_, by omega, ?_⟩
  · rw [hacq]; rfl
  · rw [hacq]
    rcases Nat.lt_or_ge k N with hlt | hge
    · rw [releaseN_stateR r k N hlt, if_neg (by omega : ¬ k = N)]
    · have hkN : k = N := by omega
      rw [hkN, releaseN_stateR_full r N hN, if_pos rfl]
  · intro hlt
    rw [hacq, releaseN_stateR r k N hlt]
    refine ⟨?_, ?_⟩
    · simp [stateR, heapFind]
      omega
    · rw [bucketGet_stateR]
      simp
  · intro hkN
    rw [hacq, hkN, releaseN_stateR_full r N hN]
    exact ⟨rfl, bucketGet_drainedState r _, rfl⟩
  · intro st id c hfind hrc hlast
    unfold pgstrom_put_gpucontext
    rw [hfind]
    simp [hrc, hlast]

/-- Witness for C1 at `r = 7`, `N = 2`, `k = 1`. -/
theorem refcount_acquire_release_lifecycle_witness :
    0 < 2 ∧ 1 ≤ 2 ∧
    ((acquireN 7 2 emptyRegistry).1 = List.replicate 2 0 ∧
     heapFind (acquireN 7 2 emptyRegistry).2.heap 0 = some ⟨(2 : Int), 7⟩) :=
  ⟨by decide, by decide,
   ((refcount_acquire_release_lifecycle 7 2 1 (by decide) (by decide)).1),
   ((refcount_acquire_release_lifecycle 7 2 1 (by decide) (by decide)).2.1)⟩

/-! ## Teardown (`pgstrom_sync_gpucontext`, `pgstrom_release_gpucontext`) -/

/-- The `GpuTaskState` fields relevant to teardown: whether a CUDA module
is loaded, and how many tasks sit in `tracked_tasks`. -/
structure GpuTaskStateRec where
  hasModule : Bool
  numTracked : Nat
deriving DecidableEq, Repr

/-- The `GpuContext` fields relevant to teardown: number of device
sub-contexts (`num_context`), the `state_list` of task states, and for each
entry of `pds_list` whether it has a `kds_fname` (file mapping). -/
structure GpuContextRec where
  numContext : Nat
  states : List GpuTaskStateRec
  pdsFnames : List Bool
deriving DecidableEq, Repr

/-- Observable steps of teardown, in program order.  Driver calls carry the
result of the call (`ok = false` is a failed call); `warn` is an
`elog(WARNING, ...)` emitted in reaction to a failed driver call;
`taskLeakWarn`/`stateLeakWarn` are the leak warnings of the commit path. -/
inductive TearEvent
  | setCurrent (i : Nat) (ok : Bool)      -- cuCtxSetCurrent(dev_context[i])
  | synchronize (i : Nat) (ok : Bool)     -- cuCtxSynchronize()
  | moduleUnload (ok : Bool)              -- cuModuleUnload
  | taskLeakWarn
  | taskRelease                           -- task->cb_release(task)
  | stateLeakWarn
  | stateCleanup                          -- gts->cb_cleanup(gts)
  | pdsUnmap                              -- pgstrom_file_unmap_data_store
  | ctxDestroy (i : Nat) (ok : Bool)      -- cuCtxDestroy(dev_context[i])
  | unbindCurrent (ok : Bool)             -- cuCtxSetCurrent(NULL), rc ignored
  | warn                                  -- elog(WARNING, ...) after a failure
deriving DecidableEq, Repr

/-- One checked driver call: the failure oracle decides the outcome of the
call with the given sequence number; a failure is followed by a warning. -/
def callEvt (oracle : Nat → Bool) (cnt : Nat) (mk : Bool → TearEvent) :
    List TearEvent × Nat :=
  (if oracle cnt then [mk false, TearEvent.warn] else [mk true], cnt + 1)

/-- The drain loop body of `pgstrom_sync_gpucontext` over the sub-context
indices: set each sub-context current, then synchronize it. -/
def syncEvtsAux (oracle : Nat → Bool) : List Nat → Nat → List TearEvent × Nat
  | [], cnt => ([], cnt)
  | i :: rest, cnt =>
    ((callEvt oracle cnt (TearEvent.setCurrent i)).1 ++
     (callEvt oracle (cnt + 1) (TearEvent.synchronize i)).1 ++
     (syncEvtsAux oracle rest (cnt + 2)).1,
     (syncEvtsAux oracle rest (cnt + 2)).2)

/-- `pgstrom_sync_gpucontext`: drains every device sub-context in index
order (`cnt` numbers the driver calls issued so far). -/
def pgstrom_sync_gpucontext (oracle : Nat → Bool) (g : GpuContextRec)
    (cnt : Nat) : List TearEvent × Nat :=
  syncEvtsAux oracle (List.range g.numContext) cnt

/-- Release of the tasks tracked by one task state: a leak warning per task
on the commit path, then the task's release callback. -/
def taskReleaseEvts (isCommit : Bool) : Nat → List TearEvent
  | 0 => []
  | n + 1 =>
    (if isCommit then [TearEvent.taskLeakWarn] else []) ++
    [TearEvent.taskRelease] ++ taskReleaseEvts isCommit n

/-- The `state_list` loop of `pgstrom_release_gpucontext`: per task state,
unload its module (a checked driver call) if loaded, release its tracked
tasks, emit the state leak warning on commit, run its cleanup callback. -/
def stateEvtsAux (oracle : Nat → Bool) (isCommit : Bool) :
    List GpuTaskStateRec → Nat → List TearEvent × Nat
  | [], cnt => ([], cnt)
  | s :: rest, cnt =>
    ((if s.hasModule then (callEvt oracle cnt TearEvent.moduleUnload).1
      else []) ++
     taskReleaseEvts isCommit s.numTracked ++
     (if isCommit then [TearEvent.stateLeakWarn] else []) ++
     [TearEvent.stateCleanup] ++
     (stateEvtsAux oracle isCommit rest
       (cnt + (if s.hasModule then 1 else 0))).1,
     (stateEvtsAux oracle isCommit rest
       (cnt + (if s.hasModule then 1 else 0))).2)

/-- The sub-context destruction loop: `cuCtxDestroy` per sub-context. -/
def destroyEvtsAux (oracle : Nat → Bool) :
    List Nat → Nat → List TearEvent × Nat
  | [], cnt => ([], cnt)
  | i :: rest, cnt =>
    ((callEvt oracle cnt (TearEvent.ctxDestroy i)).1 ++
     (destroyEvtsAux oracle rest (cnt + 1)).1,
     (destroyEvtsAux oracle rest (cnt + 1)).2)

/-- `pgstrom_release_gpucontext`: first the full drain (sync), then the
task-state loop, then data-store unmapping, then destruction of every
sub-context, and finally `cuCtxSetCurrent(NULL)` whose result is discarded
(no warning even on failure).  The trace records every step in program
order. -/
def pgstrom_release_gpucontext (oracle : Nat → Bool) (isCommit : Bool)
    (g : GpuContextRec) : List TearEvent :=
  (pgstrom_sync_gpucontext oracle g 0).1 ++
  (stateEvtsAux oracle isCommit g.states
    (pgstrom_sync_gpucontext oracle g 0).2).1 ++
  (g.pdsFnames.filter (fun b => b)).map (fun _ => TearEvent.pdsUnmap) ++
  (destroyEvtsAux oracle (List.range g.numContext)
    (stateEvtsAux oracle isCommit g.states
      (pgstrom_sync_gpucontext oracle g 0).2).2).1 ++
  [TearEvent.unbindCurrent
    (!(oracle (destroyEvtsAux oracle (List.range g.numContext)
      (stateEvtsAux oracle isCommit g.states
        (pgstrom_sync_gpucontext oracle g 0).2).2).2))]

/-- Drain steps. -/
def isDrain : TearEvent → Bool
  | .setCurrent _ _ => true
  | .synchronize _ _ => true
  | _ => false

/-- Steps that dismantle state: task release, module unload, sub-context
destruction. -/
def isTearWork : TearEvent → Bool
  | .moduleUnload _ => true
  | .taskRelease => true
  | .ctxDestroy _ _ => true
  | _ => false

/-- Driver calls that failed. -/
def failedEvt : TearEvent → Bool
  | .setCurrent _ ok => !ok
  | .synchronize _ ok => !ok
  | .moduleUnload ok => !ok
  | .ctxDestroy _ ok => !ok
  | .unbindCurrent ok => !ok
  | _ => false

/-- Failed driver calls whose result the source checks (all except the
final `cuCtxSetCurrent(NULL)`). -/
def checkedFailed : TearEvent → Bool
  | .unbindCurrent _ => false
  | e => failedEvt e

/-- Every failed driver call in the trace is immediately followed by a
warning (the literal reading of the claim, over ALL driver calls). -/
def warnFollowsAll : List TearEvent → Bool
  | [] => true
  | [e] => !(failedEvt e)
  | e :: e' :: rest =>
    (!(failedEvt e) || decide (e' = TearEvent.warn)) &&
      warnFollowsAll (e' :: rest)

/-- Every failed CHECKED driver call is immediately followed by a
warning. -/
def warnFollowsChecked : List TearEvent → Bool
  | [] => true
  | [e] => !(checkedFailed e)
  | e :: e' :: rest =>
    (!(checkedFailed e) || decide (e' = TearEvent.warn)) &&
      warnFollowsChecked (e' :: rest)

/-- Forgets the recorded result of each driver call. -/
def eraseResult : TearEvent → TearEvent
  | .setCurrent i _ => .setCurrent i true
  | .synchronize i _ => .synchronize i true
  | .moduleUnload _ => .moduleUnload true
  | .ctxDestroy i _ => .ctxDestroy i true
  | .unbindCurrent _ => .unbindCurrent true
  | e => e

/-- The fixed sequence of drain steps over given sub-context indices. -/
def drainSkeleton : List Nat → List TearEvent
  | [] => []
  | i :: rest =>
    TearEvent.setCurrent i true :: TearEvent.synchronize i true ::
      drainSkeleton rest

/-- The fixed sequence of task-state teardown steps. -/
def stateSkeleton (isCommit : Bool) : List GpuTaskStateRec → List TearEvent
  | [] => []
  | s :: rest =>
    (if s.hasModule then [TearEvent.moduleUnload true] else []) ++
    taskReleaseEvts isCommit s.numTracked ++
    (if isCommit then [TearEvent.stateLeakWarn] else []) ++
    [TearEvent.stateCleanup] ++ stateSkeleton isCommit rest

/-- The fixed sequence of sub-context destruction steps. -/
def destroySkeleton : List Nat → List TearEvent
  | [] => []
  | i :: rest => TearEvent.ctxDestroy i true :: destroySkeleton rest

theorem syncEvtsAux_mem (oracle : Nat → Bool) :
    ∀ (l : List Nat) (cnt : Nat) (e : TearEvent),
      e ∈ (syncEvtsAux oracle l cnt).1 →
      isDrain e = true ∨ e = TearEvent.warn := by
  intro l
  induction l with
  | nil => intro cnt e he; simp [syncEvtsAux] at he
  | cons i rest ih =>
    intro cnt e he
    simp only [syncEvtsAux, List.mem_append] at he
    rcases he with (he | he) | he
    · by_cases ho : oracle cnt <;>
        simp [callEvt, ho] at he <;> rcases he with rfl | rfl <;>
        simp [isDrain]
    · by_cases ho : oracle (cnt + 1) <;>
        simp [callEvt, ho] at he <;> rcases he with rfl | rfl <;>
        simp [isDrain]
    · exact ih (cnt + 2) e he

theorem taskReleaseEvts_mem (isCommit : Bool) :
    ∀ (n : Nat) (e : TearEvent), e ∈ taskReleaseEvts isCommit n →
      e = TearEvent.taskLeakWarn ∨ e = TearEvent.taskRelease := by
  intro n
  induction n with
  | zero => intro e he; simp [taskReleaseEvts] at he
  | succ k ih =>
    intro e he
    simp only [taskReleaseEvts, List.mem_append] at he
    rcases he with (he | he) | he
    · cases isCommit with
      | false => simp at he
      | true => simp at he; left; exact he
    · simp at he; right; exact he
    · exact ih e he

theorem stateEvtsAux_mem (oracle : Nat → Bool) (isCommit : Bool) :
    ∀ (l : List GpuTaskStateRec) (cnt : Nat) (e : TearEvent),
      e ∈ (stateEvtsAux oracle isCommit l cnt).1 → isDrain e = false := by
  intro l
  induction l with
  | nil => intro cnt e he; simp [stateEvtsAux] at he
  | cons s rest ih =>
    intro cnt e he
    simp only [stateEvtsAux, List.mem_append] at he
    rcases he with ((((he | he) | he) | he) | he)
    · rcases hm : s.hasModule
      · simp [hm] at he
      · rw [hm] at he
        by_cases ho : oracle cnt <;> simp [callEvt, ho] at he <;>
          rcases he with rfl | rfl <;> simp [isDrain]
    · rcases taskReleaseEvts_mem isCommit s.numTracked e he with rfl | rfl <;>
        simp [isDrain]
    · rcases isCommit <;> simp at he <;> subst he <;> simp [isDrain]
    · simp at he; subst he; simp [isDrain]
    · exact ih _ e he

theorem destroyEvtsAux_mem (oracle : Nat → Bool) :
    ∀ (l : List Nat) (cnt : Nat) (e : TearEvent),
      e ∈ (destroyEvtsAux oracle l cnt).1 → isDrain e = false := by
  intro l
  induction l with
  | nil => intro cnt e he; simp [destroyEvtsAux] at he
  | cons i rest ih =>
    intro cnt e he
    simp only [destroyEvtsAux, List.mem_append] at he
    rcases he with he | he
    · by_cases ho : oracle cnt <;> simp [callEvt, ho] at he <;>
        rcases he with rfl | rfl <;> simp [isDrain]
    · exact ih _ e he

theorem destroyEvtsAux_covers (oracle : Nat → Bool) :
    ∀ (l : List Nat) (cnt : Nat) (i : Nat), i ∈ l →
      ∃ ok, TearEvent.ctxDestroy i ok ∈ (destroyEvtsAux oracle l cnt).1 := by
  intro l
  induction l with
  | nil => intro cnt i hi; simp at hi
  | cons j rest ih =>
    intro cnt i hi
    rcases List.mem_cons.mp hi with rfl | hi
    · refine ⟨!(oracle cnt), ?_⟩
      by_cases ho : oracle cnt <;>
        simp [destroyEvtsAux, callEvt, ho]
    · obtain ⟨ok, hok⟩ := ih (cnt + 1) i hi
      exact ⟨ok, by simp [destroyEvtsAux, List.mem_append, hok]⟩

theorem warnFollowsChecked_append :
    ∀ (l1 l2 : List TearEvent), warnFollowsChecked l1 = true →
      warnFollowsChecked l2 = true →
      warnFollowsChecked (l1 ++ l2) = true := by
  intro l1
  induction l1 with
  | nil => intro l2 _ h2; simpa using h2
  | cons e t ih =>
    intro l2 h1 h2
    cases t with
    | nil =>
      have hce : checkedFailed e = false := by
        simpa [warnFollowsChecked] using h1
      cases l2 with
      | nil => simpa [warnFollowsChecked, hce] using h1
      | cons f t2 =>
        show warnFollowsChecked (e :: f :: t2) = true
        unfold warnFollowsChecked
        simp [hce, h2]
    | cons e' t' =>
      have h1' : (!(checkedFailed e) || decide (e' = TearEvent.warn)) = true ∧
          warnFollowsChecked (e' :: t') = true := by
        simpa [warnFollowsChecked, Bool.and_eq_true] using h1
      have ihh := ih l2 h1'.2 h2
      show warnFollowsChecked (e :: e' :: (t' ++ l2)) = true
      unfold warnFollowsChecked
      rw [Bool.and_eq_true]
      exact ⟨h1'.1, ihh⟩

theorem warnFollowsChecked_of_no_failed :
    ∀ l : List TearEvent, (∀ e ∈ l, checkedFailed e = false) →
      warnFollowsChecked l = true := by
  intro l
  induction l with
  | nil => intro _; rfl
  | cons e t ih =>
    intro h
    cases t with
    | nil => simp [warnFollowsChecked, h e (by simp)]
    | cons e' t' =>
      unfold warnFollowsChecked
      rw [Bool.and_eq_true]
      exact ⟨by simp [h e (by simp)],
             ih (fun x hx => h x (List.mem_cons_of_mem e hx))⟩

theorem warnFollowsChecked_callEvt (oracle : Nat → Bool) (cnt : Nat)
    (mk : Bool → TearEvent) (h1 : checkedFailed (mk true) = false) :
    warnFollowsChecked (callEvt oracle cnt mk).1 = true := by
  unfold callEvt
  by_cases ho : oracle cnt
  · simp [ho, warnFollowsChecked, checkedFailed, failedEvt]
  · simp [ho, warnFollowsChecked, h1]

theorem warnFollowsChecked_syncEvtsAux (oracle : Nat → Bool) :
    ∀ (l : List Nat) (cnt : Nat),
      warnFollowsChecked (syncEvtsAux oracle l cnt).1 = true := by
  intro l
  induction l with
  | nil => intro cnt; rfl
  | cons i rest ih =>
    intro cnt
    simp only [syncEvtsAux]
    apply warnFollowsChecked_append
    · apply warnFollowsChecked_append
      · exact warnFollowsChecked_callEvt oracle cnt _ (by rfl)
      · exact warnFollowsChecked_callEvt oracle (cnt + 1) _ (by rfl)
    · exact ih (cnt + 2)

theorem warnFollowsChecked_taskReleaseEvts (isCommit : Bool) (n : Nat) :
    warnFollowsChecked (taskReleaseEvts isCommit n) = true :=
  warnFollowsChecked_of_no_failed _ (fun e he => by
    rcases taskReleaseEvts_mem isCommit n e he with rfl | rfl <;>
      simp [checkedFailed, failedEvt])

theorem warnFollowsChecked_stateEvtsAux (oracle : Nat → Bool)
    (isCommit : Bool) :
    ∀ (l : List GpuTaskStateRec) (cnt : Nat),
      warnFollowsChecked (stateEvtsAux oracle isCommit l cnt).1 = true := by
  intro l
  induction l with
  | nil => intro cnt; rfl
  | cons s rest ih =>
    intro cnt
    simp only [stateEvtsAux]
    apply warnFollowsChecked_append
    apply warnFollowsChecked_append
    apply warnFollowsChecked_append
    apply warnFollowsChecked_append
    · cases hm : s.hasModule with
      | false => rfl
      | true => exact warnFollowsChecked_callEvt oracle cnt _ (by rfl)
    · exact warnFollowsChecked_taskReleaseEvts isCommit s.numTracked
    · cases isCommit <;> simp [warnFollowsChecked, checkedFailed, failedEvt]
    · simp [warnFollowsChecked, checkedFailed, failedEvt]
    · exact ih _

theorem warnFollowsChecked_destroyEvtsAux (oracle : Nat → Bool) :
    ∀ (l : List Nat) (cnt : Nat),
      warnFollowsChecked (destroyEvtsAux oracle l cnt).1 = true := by
  intro l
  induction l with
  | nil => intro cnt; rfl
  | cons i rest ih =>
    intro cnt
    simp only [destroyEvtsAux]
    apply warnFollowsChecked_append
    · exact warnFollowsChecked_callEvt oracle cnt _ (by rfl)
    · exact ih (cnt + 1)

/-- Keep everything except the driver-failure warnings. -/
def notWarn (e : TearEvent) : Bool := decide (e ≠ TearEvent.warn)

theorem skel_callEvt (oracle : Nat → Bool) (cnt : Nat)
    (mk : Bool → TearEvent)
    (hw : ∀ b, mk b ≠ TearEvent.warn)
    (he : eraseResult (mk false) = mk true)
    (he2 : eraseResult (mk true) = mk true) :
    ((callEvt oracle cnt mk).1.filter notWarn).map eraseResult = [mk true] := by
  unfold callEvt
  by_cases ho : oracle cnt <;>
    simp [ho, notWarn, hw false, hw true, he, he2]

theorem skel_fixed :
    ∀ l : List TearEvent,
      (∀ e ∈ l, e ≠ TearEvent.warn ∧ eraseResult e = e) →
      (l.filter notWarn).map eraseResult = l := by
  intro l
  induction l with
  | nil => intro _; rfl
  | cons e t ih =>
    intro h
    have h1 := h e (by simp)
    have hnw : notWarn e = true := by simp [notWarn, h1.1]
    simp [List.filter_cons, hnw, h1.2,
      ih (fun x hx => h x (List.mem_cons_of_mem e hx))]

theorem skel_syncEvtsAux (oracle : Nat → Bool) :
    ∀ (l : List Nat) (cnt : Nat),
      (((syncEvtsAux oracle l cnt).1.filter notWarn).map eraseResult) =
        drainSkeleton l := by
  intro l
  induction l with
  | nil => intro cnt; rfl
  | cons i rest ih =>
    intro cnt
    simp only [syncEvtsAux, drainSkeleton, List.filter_append,
      List.map_append]
    rw [skel_callEvt oracle cnt (TearEvent.setCurrent i)
          (by intro b; simp) rfl rfl,
        skel_callEvt oracle (cnt + 1) (TearEvent.synchronize i)
          (by intro b; simp) rfl rfl,
        ih (cnt + 2)]
    rfl

theorem skel_taskReleaseEvts (isCommit : Bool) (n : Nat) :
    ((taskReleaseEvts isCommit n).filter notWarn).map eraseResult =
      taskReleaseEvts isCommit n :=
  skel_fixed _ (fun e he => by
    rcases taskReleaseEvts_mem isCommit n e he with rfl | rfl <;>
      exact ⟨by simp, rfl⟩)

theorem skel_if_module (oracle : Nat → Bool) (cnt : Nat) (b : Bool) :
    (((if b then (callEvt oracle cnt TearEvent.moduleUnload).1
       else []).filter notWarn).map eraseResult) =
      (if b then [TearEvent.moduleUnload true] else []) := by
  cases b with
  | false => rfl
  | true =>
    exact skel_callEvt oracle cnt TearEvent.moduleUnload
      (by intro b; simp) rfl rfl

theorem skel_if_commitWarn (b : Bool) :
    (((if b then [TearEvent.stateLeakWarn] else []).filter notWarn).map
      eraseResult) = (if b then [TearEvent.stateLeakWarn] else []) := by
  cases b <;> rfl

theorem skel_unbind (b : Bool) :
    (([TearEvent.unbindCurrent b].filter notWarn).map eraseResult) =
      [TearEvent.unbindCurrent true] := by
  cases b <;> rfl

theorem skel_stateEvtsAux (oracle : Nat → Bool) (isCommit : Bool) :
    ∀ (l : List GpuTaskStateRec) (cnt : Nat),
      (((stateEvtsAux oracle isCommit l cnt).1.filter notWarn).map
        eraseResult) = stateSkeleton isCommit l := by
  intro l
  induction l with
  | nil => intro cnt; rfl
  | cons s rest ih =>
    intro cnt
    simp only [stateEvtsAux, stateSkeleton, List.filter_append,
      List.map_append]
    rw [skel_if_module, skel_taskReleaseEvts, skel_if_commitWarn, ih]
    rfl

theorem skel_destroyEvtsAux (oracle : Nat → Bool) :
    ∀ (l : List Nat) (cnt : Nat),
      (((destroyEvtsAux oracle l cnt).1.filter notWarn).map eraseResult) =
        destroySkeleton l := by
  intro l
  induction l with
  | nil => intro cnt; rfl
  | cons i rest ih =>
    intro cnt
    simp only [destroyEvtsAux, destroySkeleton, List.filter_append,
      List.map_append]
    rw [skel_callEvt oracle cnt (TearEvent.ctxDestroy i)
          (by intro b; simp) rfl rfl,
        ih (cnt + 1)]
    rfl

/-- C2 counterexample for the literal claim that EVERY failed driver call
during teardown is reported as a warning: the final
`cuCtxSetCurrent(NULL)` of `pgstrom_release_gpucontext` is a driver call
whose return code is discarded.  With one sub-context, no task states and
no data stores, an oracle failing exactly the fourth driver call (that
final unbind) yields a trace ending in a failed call with no warning
after it. -/
theorem release_gpucontext_silent_unbind_failure :
    pgstrom_release_gpucontext (fun n => decide (n = 3)) true ⟨1, [], []⟩ =
      [TearEvent.setCurrent 0 true, TearEvent.synchronize 0 true,
       TearEvent.ctxDestroy 0 true, TearEvent.unbindCurrent false] ∧
    warnFollowsAll
      (pgstrom_release_gpucontext (fun n => decide (n = 3)) true ⟨1, [], []⟩) =
      false := by
  refine ⟨by rfl, by rfl⟩

/-- C2 (amended): for every failure oracle, commit flag and context,
teardown (1) performs the full drain — every device sub-context set current
and synchronized — strictly before any task release, module unload or
sub-context destruction; (2) destroys every sub-context (teardown runs to
completion whatever fails); (3) reports every failed CHECKED driver call —
all of them except the final context-unbind, whose result the source
discards — with a warning immediately after it; and (4) performs, apart
from the injected warnings and the per-call results, exactly the same fixed
sequence of steps as a failure-free run. -/
theorem release_gpucontext_drain_first_total (oracle : Nat → Bool)
    (isCommit : Bool) (g : GpuContextRec) :
    (∃ rest, pgstrom_release_gpucontext oracle isCommit g =
        (pgstrom_sync_gpucontext oracle g 0).1 ++ rest ∧
      (∀ e ∈ (pgstrom_sync_gpucontext oracle g 0).1, isTearWork e = false) ∧
      (∀ e ∈ rest, isDrain e = false)) ∧
    (∀ i, i < g.numContext → ∃ ok,
      TearEvent.ctxDestroy i ok ∈ pgstrom_release_gpucontext oracle isCommit g) ∧
    warnFollowsChecked (pgstrom_release_gpucontext oracle isCommit g) = true ∧
    ((pgstrom_release_gpucontext oracle isCommit g).filter notWarn).map
        eraseResult =
      drainSkeleton (List.range g.numContext) ++
      stateSkeleton isCommit g.states ++
      (g.pdsFnames.filter (fun b => b)).map (fun _ => TearEvent.pdsUnmap) ++
      destroySkeleton (List.range g.numContext) ++
      [TearEvent.unbindCurrent true] := by
  refine ⟨?_, ?_, ?_, ?_⟩
  · refine ⟨(stateEvtsAux oracle isCommit g.states
        (pgstrom_sync_gpucontext oracle g 0).2).1 ++
      ((g.pdsFnames.filter (fun b => b)).map (fun _ => TearEvent.pdsUnmap) ++
       ((destroyEvtsAux oracle (List.range g.numContext)
          (stateEvtsAux oracle isCommit g.states
            (pgstrom_sync_gpucontext oracle g 0).2).2).1 ++
        [TearEvent.unbindCurrent
          (!(oracle (destroyEvtsAux oracle (List.range g.numContext)
            (stateEvtsAux oracle isCommit g.states
              (pgstrom_sync_gpucontext oracle g 0).2).2).2))])), ?_, ?_, ?_⟩
    · unfold pgstrom_release_gpucontext
      rw [List.append_assoc, List.append_assoc, List.append_assoc]
    · intro e he
      rcases syncEvtsAux_mem oracle (List.range g.numContext) 0 e he with
        hd | rfl
      · revert hd
        rcases e <;> simp [isDrain, isTearWork]
      · rfl
    · intro e he
      simp only [List.mem_append] at he
      rcases he with he | he | he | he
      · exact stateEvtsAux_mem oracle isCommit g.states _ e he
      · obtain ⟨b, _, rfl⟩ := List.mem_map.mp he
        rfl
      · exact destroyEvtsAux_mem oracle _ _ e he
      · simp at he; subst he; rfl
  · intro i hi
    obtain ⟨ok, hok⟩ := destroyEvtsAux_covers oracle (List.range g.numContext)
      ((stateEvtsAux oracle isCommit g.states
        (pgstrom_sync_gpucontext oracle g 0).2).2) i
      (List.mem_range.mpr hi)
    refine ⟨ok, ?_⟩
    unfold pgstrom_release_gpucontext
    simp only [List.mem_append]
    exact Or.inl (Or.inr hok)
  · unfold pgstrom_release_gpucontext
    apply warnFollowsChecked_append
    apply warnFollowsChecked_append
    apply warnFollowsChecked_append
    apply warnFollowsChecked_append
    · exact warnFollowsChecked_syncEvtsAux oracle _ _
    · exact warnFollowsChecked_stateEvtsAux oracle isCommit _ _
    · exact warnFollowsChecked_of_no_failed _ (fun e he => by
        obtain ⟨b, _, rfl⟩ := List.mem_map.mp he
        rfl)
    · exact warnFollowsChecked_destroyEvtsAux oracle _ _
    · simp [warnFollowsChecked, checkedFailed]
  · unfold pgstrom_release_gpucontext pgstrom_sync_gpucontext
    simp only [List.filter_append, List.map_append]
    rw [skel_syncEvtsAux, skel_stateEvtsAux, skel_destroyEvtsAux,
      skel_unbind,
      skel_fixed _ (fun e he => by
        obtain ⟨b, _, rfl⟩ := List.mem_map.mp he
        exact ⟨by simp, rfl⟩)]

/-! ## Task initialization (`pgstrom_init_gputask`) -/

/-- The fields of `GpuContext` touched by `pgstrom_init_gputask`: the
round-robin cursor `cur_context` and the sub-context count `num_context`. -/
structure RoundRobinCtx where
  curContext : Nat
  numContext : Nat
deriving DecidableEq, Repr

/-- The fields of the initialized `GpuTask` that are visible to the claim:
which device sub-context index it was bound to (its stream is a fresh
non-blocking stream on that sub-context). -/
structure GpuTaskRec where
  deviceIndex : Nat
deriving DecidableEq, Repr

/-- Outcomes of the three driver calls made by `pgstrom_init_gputask`, in
program order: `cuCtxGetDevice`, `cuCtxSetCurrent`, `cuStreamCreate`. -/
structure TaskDriverOracle where
  failGetDevice : Bool
  failSetCurrent : Bool
  failStreamCreate : Bool
deriving DecidableEq, Repr

/-- `pgstrom_init_gputask`: first `gcontext->cur_context++` picks the
round-robin sub-context index (post-increment: the index uses the old
cursor), then the three driver calls run; any failure raises
`elog(ERROR, ...)` — the task is not appended to `tracked_tasks`, but the
cursor increment has already happened.  On success the task is bound to the
chosen sub-context and appended to the tracked collection. -/
def pgstrom_init_gputask (o : TaskDriverOracle) (g : RoundRobinCtx)
    (tracked : List GpuTaskRec) :
    Except Unit GpuTaskRec × RoundRobinCtx × List GpuTaskRec :=
  let index := g.curContext % g.numContext
  let g' : RoundRobinCtx := { g with curContext := g.curContext + 1 }
  if o.failGetDevice then (.error (), g', tracked)
  else if o.failSetCurrent then (.error (), g', tracked)
  else if o.failStreamCreate then (.error (), g', tracked)
  else (.ok ⟨index⟩, g', tracked ++ [⟨index⟩])

/-- C9 counterexample: a failing `cuCtxGetDevice` leaves the tracked
collection untouched and surfaces an error, but the context's bookkeeping
is NOT unchanged — the round-robin cursor `cur_context` was already
incremented before the failing call. -/
theorem init_gputask_failure_advances_cursor :
    pgstrom_init_gputask ⟨true, false, false⟩ ⟨0, 2⟩ [] =
      (.error (), ⟨1, 2⟩, []) ∧
    (⟨1, 2⟩ : RoundRobinCtx) ≠ ⟨0, 2⟩ := by
  refine ⟨by rfl, by decide⟩

/-- C9 (amended): whatever the driver outcomes, `pgstrom_init_gputask`
advances the round-robin cursor by exactly one and changes nothing else in
the context.  If any of the three driver calls fails, the caller gets an
error and the tracked collection is unchanged — a partially initialized
task is never inserted.  On success the task is bound to sub-context
`cur_context % num_context` (the pre-increment cursor, i.e. round-robin
order) and appended to the tracked collection. -/
theorem init_gputask_tracked_only_on_success (o : TaskDriverOracle)
    (g : RoundRobinCtx) (tracked : List GpuTaskRec) :
    (pgstrom_init_gputask o g tracked).2.1 =
      ⟨g.curContext + 1, g.numContext⟩ ∧
    ((o.failGetDevice || o.failSetCurrent || o.failStreamCreate) = true →
      (pgstrom_init_gputask o g tracked).1 = .error () ∧
      (pgstrom_init_gputask o g tracked).2.2 = tracked) ∧
    ((o.failGetDevice || o.failSetCurrent || o.failStreamCreate) = false →
      (pgstrom_init_gputask o g tracked).1 =
        .ok ⟨g.curContext % g.numContext⟩ ∧
      (pgstrom_init_gputask o g tracked).2.2 =
        tracked ++ [⟨g.curContext % g.numContext⟩]) := by
  unfold pgstrom_init_gputask
  rcases o with ⟨f1, f2, f3⟩
  rcases f1 <;> rcases f2 <;> rcases f3 <;> simp

end CudaControl
